import Mathlib

/-!
Shallow embedding of `pt.go` from goptlib (Tor pluggable transports library).

Bytes are modelled as `Nat` values (< 256 in well-formed data); byte strings
as `List Nat`.  Streams are modelled as the list of bytes available to read;
writing is modelled by returning the list of bytes written.  Fallible Go
functions returning `error` are modelled with `Except String` / `Option String`,
carrying the error message the Go code builds with `errors.New`.
-/

namespace Goptlib

/-! ### 32-bit words as `Nat` with explicit truncation -/

/-- Truncate to a 32-bit word, as Go `uint32` arithmetic does. -/
def w32 (n : Nat) : Nat := n % 4294967296

/-- Right rotation of a 32-bit word. -/
def rotr (x n : Nat) : Nat := w32 ((x >>> n) ||| (x <<< (32 - n)))

/-- Bitwise complement of a 32-bit word. -/
def wnot (x : Nat) : Nat := 4294967295 ^^^ x

/-! ### SHA-256 (Go `crypto/sha256`), FIPS 180-4 -/

/-- The 64 SHA-256 round constants (decimal). -/
def shaK : List Nat :=
  [1116352408, 1899447441, 3049323471, 3921009573, 961987163,
   1508970993, 2453635748, 2870763221, 3624381080, 310598401,
   607225278, 1426881987, 1925078388, 2162078206, 2614888103,
   3248222580, 3835390401, 4022224774, 264347078, 604807628,
   770255983, 1249150122, 1555081692, 1996064986, 2554220882,
   2821834349, 2952996808, 3210313671, 3336571891, 3584528711,
   113926993, 338241895, 666307205, 773529912, 1294757372,
   1396182291, 1695183700, 1986661051, 2177026350, 2456956037,
   2730485921, 2820302411, 3259730800, 3345764771, 3516065817,
   3600352804, 4094571909, 275423344, 430227734, 506948616,
   659060556, 883997877, 958139571, 1322822218, 1537002063,
   1747873779, 1955562222, 2024104815, 2227730452, 2361852424,
   2428436474, 2756734187, 3204031479, 3329325298]

/-- The SHA-256 initial hash state (decimal). -/
def shaH0 : List Nat :=
  [1779033703, 3144134277, 1013904242, 2773480762,
   1359893119, 2600822924, 528734635, 1541459225]

/-- Big-endian packing of 4 bytes into a 32-bit word. -/
def bytesToWord (a b c d : Nat) : Nat := a * 16777216 + b * 65536 + c * 256 + d

/-- Split a byte list into big-endian 32-bit words. -/
def toWords : List Nat → List Nat
  | a :: b :: c :: d :: rest => bytesToWord a b c d :: toWords rest
  | _ => []

/-- Big-endian bytes of a 32-bit word. -/
def wordToBytes (x : Nat) : List Nat :=
  [x / 16777216 % 256, x / 65536 % 256, x / 256 % 256, x % 256]

/-- Big-endian bytes of a 64-bit length field. -/
def word64ToBytes (x : Nat) : List Nat :=
  [x / 72057594037927936 % 256, x / 281474976710656 % 256, x / 1099511627776 % 256,
   x / 4294967296 % 256, x / 16777216 % 256, x / 65536 % 256, x / 256 % 256, x % 256]

/-- SHA-256 message padding: append `0x80`, zeros to 56 mod 64, then the
bit length as a 64-bit big-endian integer. -/
def shaPad (msg : List Nat) : List Nat :=
  msg ++ [128] ++ List.replicate ((64 - (msg.length + 9) % 64) % 64) 0
      ++ word64ToBytes (8 * msg.length)

/-- Extend a 16-word message block to the 64-word schedule (`n` = remaining
words to append, starting at 48). -/
def shaSched (w : List Nat) : Nat → List Nat
  | 0 => w
  | n + 1 =>
    let s0x := w.getD (w.length - 15) 0
    let s1x := w.getD (w.length - 2) 0
    let s0 := rotr s0x 7 ^^^ rotr s0x 18 ^^^ (s0x >>> 3)
    let s1 := rotr s1x 17 ^^^ rotr s1x 19 ^^^ (s1x >>> 10)
    shaSched (w ++ [w32 (w.getD (w.length - 16) 0 + s0 + w.getD (w.length - 7) 0 + s1)]) n

/-- One SHA-256 compression round on the working variables `[a,b,c,d,e,f,g,h]`. -/
def shaRound (wi ki : Nat) (s : List Nat) : List Nat :=
  match s with
  | [a, b, c, d, e, f, g, h] =>
    let S1 := rotr e 6 ^^^ rotr e 11 ^^^ rotr e 25
    let ch := (e &&& f) ^^^ (wnot e &&& g)
    let t1 := w32 (h + S1 + ch + ki + wi)
    let S0 := rotr a 2 ^^^ rotr a 13 ^^^ rotr a 22
    let maj := (a &&& b) ^^^ (a &&& c) ^^^ (b &&& c)
    let t2 := w32 (S0 + maj)
    [w32 (t1 + t2), a, b, c, w32 (d + t1), e, f, g]
  | _ => s

/-- Compress one 64-byte chunk into the running hash state. -/
def shaCompress (h : List Nat) (chunk : List Nat) : List Nat :=
  let w := shaSched (toWords chunk) 48
  let s := (List.range 64).foldl (fun s i => shaRound (w.getD i 0) (shaK.getD i 0) s) h
  List.zipWith (fun x y => w32 (x + y)) h s

/-- Split a byte list into 64-byte chunks (`fuel` bounds the recursion). -/
def chunks64 : Nat → List Nat → List (List Nat)
  | 0, _ => []
  | _, [] => []
  | n + 1, l => l.take 64 :: chunks64 n (l.drop 64)

/-- SHA-256 of a byte list, as a 32-byte list. -/
def sha256 (msg : List Nat) : List Nat :=
  let padded := shaPad msg
  ((chunks64 padded.length padded).foldl shaCompress shaH0).map wordToBytes |>.flatten

/-- HMAC-SHA256 (Go `crypto/hmac` with `sha256.New`): keys longer than the
64-byte block size are first hashed; the key is zero-padded to 64 bytes and
xored with the inner/outer pad constants. -/
def hmacSha256 (key msg : List Nat) : List Nat :=
  let k := if key.length > 64 then sha256 key else key
  let kp := k ++ List.replicate (64 - k.length) 0
  sha256 ((kp.map fun b => b ^^^ 92) ++ sha256 ((kp.map fun b => b ^^^ 54) ++ msg))

/-- ASCII bytes of a Lean string literal (all literals used here are ASCII). -/
def strBytes (s : String) : List Nat := s.toList.map Char.toNat

/-! ### `escape` and `formatLine` (pt.go lines 93-118)

Go strings are byte sequences; `escape` iterates over the bytes. -/

/-- Lowercase hexadecimal digit byte, as produced by Go fmt with the 02x verb. -/
def hexDigitByte (n : Nat) : Nat := if n < 10 then 48 + n else 87 + n

/-- How `escape` rewrites one input byte: newline becomes `\n`, backslash is
doubled, other bytes in 1..127 pass through, and `0` or bytes ≥ 128 become a
four-byte `\xNN` escape. -/
def escapeByte (b : Nat) : List Nat :=
  if b = 10 then [92, 110]
  else if b = 92 then [92, 92]
  else if 0 < b ∧ b < 128 then [b]
  else [92, 120, hexDigitByte (b / 16 % 16), hexDigitByte (b % 16)]

/-- `escape` from pt.go: escape a string so it contains no byte values over
127 and none of the bytes 0x00 or 0x0a. -/
def escape (s : List Nat) : List Nat := (s.map escapeByte).flatten

/-- `formatLine` from pt.go: the keyword, unescaped, followed by a space and
the escaped form of each argument. -/
def formatLine (keyword : List Nat) (v : List (List Nat)) : List Nat :=
  keyword ++ (v.map fun x => 32 :: escape x).flatten

/-- The keyword literals this package ever passes to `formatLine` (via `Line`,
`doError` and `ptErr.Error`). -/
def usedKeywords : List (List Nat) :=
  [strBytes "VERSION", strBytes "ENV-ERROR", strBytes "VERSION-ERROR",
   strBytes "CMETHOD-ERROR", strBytes "SMETHOD-ERROR", strBytes "CMETHOD",
   strBytes "CMETHODS", strBytes "SMETHOD", strBytes "SMETHODS"]

/-! ### `readAuthCookieFile` (pt.go lines 325-357)

The file is modelled as the list of its bytes.  Go's `io.ReadFull` fills the
destination buffer with the bytes actually read and reports `EOF` when
nothing was read or `unexpected EOF` on a partial read; the 32-byte buffers
are zero-initialised by `make`.  The Go function returns the cookie buffer
alongside the error on every path, so the model returns
`(cookie buffer, optional error)`.  The Go branch returning "did not find
EOF at end of file" (a non-EOF error from the final 1-byte read) cannot occur
for a plain byte-list file and has no counterpart here. -/

/-- The fixed 32-byte cookie-file header: `"! Extended ORPort Auth Cookie !"`
followed by the byte 0x0a. -/
def authCookieHeader : List Nat := strBytes "! Extended ORPort Auth Cookie !" ++ [10]

/-- The error `io.ReadFull` reports when only `n` of the requested bytes
were available: `EOF` when none, `unexpected EOF` on a partial read. -/
def readFullErr (n : Nat) : String := if n = 0 then "EOF" else "unexpected EOF"

/-- `readAuthCookieFile` from pt.go, on the bytes of the file. -/
def readAuthCookieFile (file : List Nat) : List Nat × Option String :=
  if file.length < 32 then
    -- first ReadFull (header) fails; the cookie buffer is untouched
    (List.replicate 32 0, some (readFullErr file.length))
  else if file.length < 64 then
    -- second ReadFull (cookie) fails after a partial fill
    (file.drop 32 ++ List.replicate (64 - file.length) 0,
     some (readFullErr (file.length - 32)))
  else if 64 < file.length then
    ((file.drop 32).take 32, some "file is longer than 64 bytes")
  else if file.take 32 ≠ authCookieHeader then
    ((file.drop 32).take 32, some "missing auth cookie header")
  else
    ((file.drop 32).take 32, none)

/-! ### HMAC hashes of the extended ORPort handshake (pt.go lines 416-431) -/

/-- `computeServerHash` from pt.go: HMAC-SHA256 keyed with the auth cookie
over the server-to-client domain string, the client nonce and the server
nonce. -/
def computeServerHash (authCookie clientNonce serverNonce : List Nat) : List Nat :=
  hmacSha256 authCookie
    (strBytes "ExtORPort authentication server-to-client hash" ++ clientNonce ++ serverNonce)

/-- `computeClientHash` from pt.go: HMAC-SHA256 keyed with the auth cookie
over the client-to-server domain string, the client nonce and the server
nonce. -/
def computeClientHash (authCookie clientNonce serverNonce : List Nat) : List Nat :=
  hmacSha256 authCookie
    (strBytes "ExtORPort authentication client-to-server hash" ++ clientNonce ++ serverNonce)

/-- Go `subtle.ConstantTimeCompare`: 0 when the lengths differ, otherwise 1
exactly when the accumulated xor of corresponding bytes is zero. -/
def constantTimeCompare (x y : List Nat) : Nat :=
  if x.length ≠ y.length then 0
  else if (List.zipWith (fun a b => a ^^^ b) x y).foldl (· ||| ·) 0 = 0 then 1 else 0

/-! ### `extOrPortAuthenticate` (pt.go lines 433-510)

The bytes readable from the connection are a `List Nat`; the client nonce
(Go reads it from `crypto/rand`) is a parameter; the result pairs the bytes
the function wrote to the connection with the Go return value.  The final
`r.Buffered() != 0` check is modelled as: input bytes remaining after the
status byte. -/

/-- Reading exactly `n` bytes (`io.ReadFull`): the bytes and the rest of the
stream, or `none` when the stream is too short. -/
def readFullN (input : List Nat) (n : Nat) : Option (List Nat × List Nat) :=
  if n ≤ input.length then some (input.take n, input.drop n) else none

/-- The auth-type reading loop of `extOrPortAuthenticate`: up to 256 single
bytes, stopping at a zero byte; `fuel` starts at 256 and counts the loop
iterations left.  Returns the collected (non-zero) type bytes and the rest of
the stream, or the Go error. -/
def readAuthTypes : Nat → List Nat → List Nat → Except String (List Nat × List Nat)
  | 0, _, _ => .error "read 256 auth types without seeing \\x00"
  | _ + 1, [], _ => .error "EOF"
  | fuel + 1, b :: rest, acc =>
    if b = 0 then .ok (acc, rest)
    else readAuthTypes fuel rest (acc ++ [b])

/-- `extOrPortAuthenticate` from pt.go.  First component: bytes written to
the connection; second: the Go result. -/
def extOrPortAuthenticate (authCookie clientNonce input : List Nat) :
    List Nat × Except String Unit :=
  match readAuthTypes 256 input [] with
  | .error e => ([], .error e)
  | .ok (authTypes, rest) =>
    if 1 ∈ authTypes then
      -- write the selection byte, generate and write the client nonce
      match readFullN rest 32 with
      | none => (1 :: clientNonce, .error "EOF")
      | some (serverHash, rest) =>
        match readFullN rest 32 with
        | none => (1 :: clientNonce, .error "EOF")
        | some (serverNonce, rest) =>
          if constantTimeCompare serverHash
              (computeServerHash authCookie clientNonce serverNonce) ≠ 1 then
            (1 :: clientNonce, .error "mismatch in server hash")
          else
            let clientHash := computeClientHash authCookie clientNonce serverNonce
            match readFullN rest 1 with
            | none => (1 :: clientNonce ++ clientHash, .error "EOF")
            | some (status, rest) =>
              if status.getD 0 0 ≠ 1 then
                (1 :: clientNonce ++ clientHash, .error "server rejected authentication")
              else if rest.length ≠ 0 then
                (1 :: clientNonce ++ clientHash,
                 .error "bytes left after extended OR port authentication")
              else
                (1 :: clientNonce ++ clientHash, .ok ())
    else
      ([], .error "server didn't offer auth type 1")

/-! ### Command framing (pt.go lines 513-587) -/

/-- Command ids, section 3.1 of 196-transport-control-ports.txt. -/
def extOrCmdDone : Nat := 0x0000

def extOrCmdUserAddr : Nat := 0x0001

def extOrCmdTransport : Nat := 0x0002

def extOrCmdOkay : Nat := 0x1000

def extOrCmdDeny : Nat := 0x1001

/-- `extOrPortWriteCommand` from pt.go: the bytes written for one command —
2 big-endian id bytes (`cmd` is a Go `uint16`, hence the truncation), 2
big-endian length bytes, then the body; bodies over 65535 bytes are an
error and nothing is written. -/
def extOrPortWriteCommand (cmd : Nat) (body : List Nat) : Except String (List Nat) :=
  if body.length > 65535 then .error "command exceeds maximum length of 65535"
  else .ok (cmd % 65536 / 256 :: cmd % 256 :: body.length / 256 :: body.length % 256 :: body)

/-- `extOrPortRecvCommand` from pt.go: read a 4-byte header (`io.ReadFull`
fails with an error on a shorter stream), decode the big-endian id and body
length, then read exactly that many body bytes.  Returns
`(cmd, body, rest of stream)`. -/
def extOrPortRecvCommand (input : List Nat) :
    Except String (Nat × List Nat × List Nat) :=
  match input with
  | b0 :: b1 :: b2 :: b3 :: rest =>
    let cmd := b0 * 256 + b1
    let bodyLen := b2 * 256 + b3
    match readFullN rest bodyLen with
    | none => .error "EOF"
    | some (body, rest) => .ok (cmd, body, rest)
  | _ => .error "EOF"

/-- Four-digit lowercase hexadecimal, as Go fmt with the 04x verb, for the
unknown-command error message. -/
def hex4 (n : Nat) : List Nat :=
  [hexDigitByte (n / 4096 % 16), hexDigitByte (n / 256 % 16),
   hexDigitByte (n / 16 % 16), hexDigitByte (n % 16)]

/-! ### `extOrPortSetup` (pt.go lines 592-618)

`conn.RemoteAddr().String()` and `methodName` enter as byte lists; the
result pairs the bytes written to the connection with the Go result.  The
unknown-command message embeds the hex id, so the error is modelled as a
byte list here (`strBytes` of the fixed messages elsewhere in this file
gives the comparable form). -/

/-- `extOrPortSetup` from pt.go: send USERADDR, TRANSPORT, DONE, then
receive one command; OKAY is success, DENY and anything else are errors. -/
def extOrPortSetup (remoteAddr methodName input : List Nat) :
    List Nat × Except (List Nat) Unit :=
  match extOrPortWriteCommand extOrCmdUserAddr remoteAddr with
  | .error e => ([], .error (strBytes e))
  | .ok w1 =>
    match extOrPortWriteCommand extOrCmdTransport methodName with
    | .error e => (w1, .error (strBytes e))
    | .ok w2 =>
      match extOrPortWriteCommand extOrCmdDone [] with
      | .error e => (w1 ++ w2, .error (strBytes e))
      | .ok w3 =>
        match extOrPortRecvCommand input with
        | .error e => (w1 ++ w2 ++ w3, .error (strBytes e))
        | .ok (cmd, _, _) =>
          if cmd = extOrCmdDeny then
            (w1 ++ w2 ++ w3, .error (strBytes "server returned DENY after our USERADDR and DONE"))
          else if cmd ≠ extOrCmdOkay then
            (w1 ++ w2 ++ w3,
             .error (strBytes "server returned unknown command 0x" ++ hex4 cmd ++
                     strBytes " after our USERADDR and DONE"))
          else
            (w1 ++ w2 ++ w3, .ok ())

/-! ### `ConnectOr` (pt.go lines 624-647)

The network effects are modelled as a trace of the actions the function
performs, in order; the dial, authenticate and setup outcomes are supplied
as parameters of the environment (they depend on the network peer).  The
returned stream is the direct OR connection or the extended-OR connection. -/

/-- One observable action of `ConnectOr`. -/
inductive ConnectAction where
  | dialOr
  | dialExt
  | setDeadline
  | authenticate
  | setup
  | close
  | clearDeadline
deriving DecidableEq, Repr

/-- The stream `ConnectOr` can return. -/
inductive OrStream where
  | orConn
  | extConn
deriving DecidableEq, Repr

/-- The parts of `ConnectOr`'s environment that determine its control flow:
whether `info.ExtendedOrAddr` is set, and the outcomes of the two dials, the
authentication and the setup. -/
structure ConnectEnv where
  extConfigured : Bool
  dialOrResult : Except String Unit
  dialExtResult : Except String Unit
  authResult : Except String Unit
  setupResult : Except String Unit

/-- `ConnectOr` from pt.go, as the trace of actions performed plus the Go
result.  With no extended OR address the direct dial's result is returned
immediately; otherwise the deadline is set after dialing, authentication and
setup run, any failure closes the connection and propagates the error, and
success clears the deadline. -/
def ConnectOr (env : ConnectEnv) : List ConnectAction × Except String OrStream :=
  if env.extConfigured = false then
    ([.dialOr], do let _ ← env.dialOrResult; return .orConn)
  else
    match env.dialExtResult with
    | .error e => ([.dialExt], .error e)
    | .ok () =>
      match env.authResult with
      | .error e => ([.dialExt, .setDeadline, .authenticate, .close], .error e)
      | .ok () =>
        match env.setupResult with
        | .error e =>
          ([.dialExt, .setDeadline, .authenticate, .setup, .close], .error e)
        | .ok () =>
          ([.dialExt, .setDeadline, .authenticate, .setup, .clearDeadline], .ok .extConn)

/-! ### Helper lemmas -/

lemma or_eq_zero (a b : Nat) : a ||| b = 0 ↔ a = 0 ∧ b = 0 := by
  constructor
  · intro h
    have ha : a = 0 := Nat.zero_of_testBit_eq_false fun i => by
      have := congrArg (fun n => Nat.testBit n i) h
      simp [Nat.testBit_or] at this
      simpa using this.1
    have hb : b = 0 := Nat.zero_of_testBit_eq_false fun i => by
      have := congrArg (fun n => Nat.testBit n i) h
      simp [Nat.testBit_or] at this
      simpa using this.2
    exact ⟨ha, hb⟩
  · rintro ⟨rfl, rfl⟩; rfl

lemma foldl_or_eq_zero (l : List Nat) (a : Nat) :
    l.foldl (· ||| ·) a = 0 ↔ a = 0 ∧ ∀ b ∈ l, b = 0 := by
  induction l generalizing a with
  | nil => simp
  | cons x xs ih =>
    rw [List.foldl_cons, ih, or_eq_zero]
    simp only [List.mem_cons]
    constructor
    · rintro ⟨⟨ha, hx⟩, hxs⟩
      exact ⟨ha, fun b hb => hb.elim (fun h => h ▸ hx) (hxs b)⟩
    · rintro ⟨ha, h⟩
      exact ⟨⟨ha, h x (Or.inl rfl)⟩, fun b hb => h b (Or.inr hb)⟩

lemma zipWith_xor_all_zero (x : List Nat) : ∀ y : List Nat, x.length = y.length →
    ((∀ b ∈ List.zipWith (fun a b => a ^^^ b) x y, b = 0) ↔ x = y) := by
  induction x with
  | nil => intro y h; cases y <;> simp_all
  | cons a xs ih =>
    intro y h
    cases y with
    | nil => simp at h
    | cons b ys =>
      simp only [List.zipWith_cons_cons, List.mem_cons, List.cons.injEq]
      rw [← ih ys (by simpa using h)]
      constructor
      · intro hz
        exact ⟨Nat.xor_eq_zero.mp (hz _ (Or.inl rfl)), fun c hc => hz c (Or.inr hc)⟩
      · rintro ⟨hab, hz⟩ c hc
        exact hc.elim (fun h => h ▸ Nat.xor_eq_zero.mpr hab) (hz c)

/-- `subtle.ConstantTimeCompare` returns 1 exactly on equal byte lists. -/
lemma constantTimeCompare_eq_one (x y : List Nat) :
    constantTimeCompare x y = 1 ↔ x = y := by
  unfold constantTimeCompare
  split_ifs with h1 h2
  · constructor
    · intro h; exact absurd h (by decide)
    · intro h; exact absurd (congrArg List.length h) h1
  · rw [foldl_or_eq_zero] at h2
    simp only [true_iff]
    exact (zipWith_xor_all_zero x y (by omega)).mp h2.2
  · rw [foldl_or_eq_zero] at h2
    constructor
    · intro h; exact absurd h (by decide)
    · intro h
      exact absurd ⟨rfl, (zipWith_xor_all_zero x y (by omega)).mpr h⟩ h2

/-- The auth-type loop on a stream starting with a zero-terminated list of
non-zero type bytes short enough for the fuel: it collects exactly those
bytes and leaves the rest of the stream. -/
lemma readAuthTypes_terminated (ts : List Nat) : ∀ fuel acc rest, ts.length < fuel →
    (∀ b ∈ ts, b ≠ 0) →
    readAuthTypes fuel (ts ++ 0 :: rest) acc = .ok (acc ++ ts, rest) := by
  induction ts with
  | nil =>
    intro fuel acc rest h _
    cases fuel with
    | zero => omega
    | succ n => simp [readAuthTypes]
  | cons t ts ih =>
    intro fuel acc rest h hnz
    cases fuel with
    | zero => omega
    | succ n =>
      have ht : ¬(t = 0) := hnz t (List.mem_cons_self t ts)
      simp only [List.cons_append, readAuthTypes, ht, if_false, List.append_eq]
      rw [ih n (acc ++ [t]) rest (by simp at h ⊢; omega)
          (fun b hb => hnz b (List.mem_cons_of_mem t hb))]
      simp

/-- The auth-type loop exhausts its fuel on a stream whose first `fuel`
bytes are all non-zero. -/
lemma readAuthTypes_exhausted : ∀ fuel input acc, fuel ≤ input.length →
    (∀ b ∈ input.take fuel, b ≠ 0) →
    readAuthTypes fuel input acc = .error "read 256 auth types without seeing \\x00" := by
  intro fuel
  induction fuel with
  | zero => intro input acc _ _; rfl
  | succ n ih =>
    intro input acc h hb
    cases input with
    | nil => simp at h
    | cons x rest =>
      have hx : ¬(x = 0) := hb x (by simp [List.take_succ_cons])
      simp only [readAuthTypes, hx, if_false]
      exact ih rest (acc ++ [x]) (by simp at h ⊢; omega)
        (fun b hbm => hb b (by simp [List.take_succ_cons, hbm]))

/-! ### Claim theorems -/

/-- C2: the cookie loader succeeds — returning the trailing 32 bytes as the
cookie — exactly when the file is 64 bytes long and its first 32 bytes are
the fixed header `"! Extended ORPort Auth Cookie !"` followed by 0x0a; any
other length or header yields an error. -/
theorem readAuthCookieFile_correct (file : List Nat) :
    ((readAuthCookieFile file).2 = none ↔
      file.length = 64 ∧ file.take 32 = authCookieHeader) ∧
    ((readAuthCookieFile file).2 = none →
      (readAuthCookieFile file).1 = file.drop 32) := by
  unfold readAuthCookieFile
  split_ifs with h1 h2 h3 h4
  · exact ⟨⟨fun h => by simp at h, fun h => absurd h.1 (by omega)⟩, fun h => by simp at h⟩
  · exact ⟨⟨fun h => by simp at h, fun h => absurd h.1 (by omega)⟩, fun h => by simp at h⟩
  · exact ⟨⟨fun h => by simp at h, fun h => absurd h.1 (by omega)⟩, fun h => by simp at h⟩
  · exact ⟨⟨fun h => by simp at h, fun h => absurd h.2 h4⟩, fun h => by simp at h⟩
  · refine ⟨⟨fun _ => ⟨by omega, not_not.mp h4⟩, fun _ => rfl⟩, fun _ => ?_⟩
    exact List.take_of_length_le (by rw [List.length_drop]; omega)

/-- C2 witness: a well-formed 64-byte file loads, giving its last 32 bytes. -/
theorem readAuthCookieFile_correct_witness :
    (readAuthCookieFile (authCookieHeader ++ List.replicate 32 7)).1 =
      (authCookieHeader ++ List.replicate 32 7).drop 32 :=
  (readAuthCookieFile_correct (authCookieHeader ++ List.replicate 32 7)).2 (by decide)

/-- C9: whenever the loader fails after the first 64 bytes of the file were
read (file too long, or header mismatch), the returned buffer still holds
the file bytes at positions 32..63, alongside the error. -/
theorem readAuthCookieFile_error_keeps_bytes (file : List Nat) (e : String)
    (hlen : 64 ≤ file.length) (herr : (readAuthCookieFile file).2 = some e) :
    (readAuthCookieFile file).1 = (file.drop 32).take 32 := by
  unfold readAuthCookieFile at herr ⊢
  split_ifs at herr ⊢ with h1 h2 h3 h4
  · omega
  · omega
  · rfl
  · rfl

/-- C9 witness: a 65-byte file fails to load, yet the cookie bytes read from
positions 32..63 come back with the error. -/
theorem readAuthCookieFile_error_keeps_bytes_witness :
    (readAuthCookieFile (List.replicate 65 7)).1 =
      ((List.replicate 65 7).drop 32).take 32 :=
  readAuthCookieFile_error_keeps_bytes (List.replicate 65 7)
    "file is longer than 64 bytes" (by decide) (by decide)

/-- C3: for every 16-bit command id and every body of at most 65535 bytes,
the encoder emits exactly the 2 big-endian id bytes, the 2 big-endian
length bytes and the body — no padding or terminator — and the decoder
recovers exactly `(id, body)` from those bytes, consuming the whole
stream. -/
theorem extOrPortCommand_round_trip (cmd : Nat) (body : List Nat)
    (hc : cmd < 65536) (hb : body.length ≤ 65535) :
    extOrPortWriteCommand cmd body =
      .ok (cmd / 256 :: cmd % 256 :: body.length / 256 :: body.length % 256 :: body) ∧
    extOrPortRecvCommand
        (cmd / 256 :: cmd % 256 :: body.length / 256 :: body.length % 256 :: body) =
      .ok (cmd, body, []) := by
  constructor
  · unfold extOrPortWriteCommand
    rw [if_neg (by omega), Nat.mod_eq_of_lt hc]
  · have hcmd : cmd / 256 * 256 + cmd % 256 = cmd := by omega
    have hr : readFullN body (body.length / 256 * 256 + body.length % 256) =
        some (body, []) := by
      unfold readFullN
      rw [if_pos (by omega)]
      have hlen : body.length / 256 * 256 + body.length % 256 = body.length := by omega
      rw [hlen, List.take_length, List.drop_length]
    simp only [extOrPortRecvCommand, hr, hcmd]

/-- C3 witness: the round trip at command id 0x1000 with body `[1, 2, 3]`. -/
theorem extOrPortCommand_round_trip_witness :
    extOrPortWriteCommand 4096 [1, 2, 3] = .ok [16, 0, 0, 3, 1, 2, 3] ∧
    extOrPortRecvCommand [16, 0, 0, 3, 1, 2, 3] = .ok (4096, [1, 2, 3], []) :=
  extOrPortCommand_round_trip 4096 [1, 2, 3] (by decide) (by decide)

/-- C10: `escape` emits only bytes in 1..127 and never a newline byte, and
`formatLine` therefore builds a single line of such bytes whenever its
keyword consists of such bytes — which every keyword this package passes to
it does. -/
theorem escape_ascii_single_line :
    (∀ s : List Nat, ∀ b ∈ escape s, 0 < b ∧ b < 128 ∧ b ≠ 10) ∧
    (∀ kw : List Nat, (∀ c ∈ kw, 0 < c ∧ c < 128 ∧ c ≠ 10) →
      ∀ v : List (List Nat), ∀ b ∈ formatLine kw v, 0 < b ∧ b < 128 ∧ b ≠ 10) ∧
    (∀ kw ∈ usedKeywords, ∀ c ∈ kw, 0 < c ∧ c < 128 ∧ c ≠ 10) := by
  have hesc : ∀ s : List Nat, ∀ b ∈ escape s, 0 < b ∧ b < 128 ∧ b ≠ 10 := by
    intro s b hb
    unfold escape at hb
    rw [List.mem_flatten] at hb
    obtain ⟨l, hl, hbl⟩ := hb
    rw [List.mem_map] at hl
    obtain ⟨x, _, rfl⟩ := hl
    unfold escapeByte at hbl
    split_ifs at hbl with h1 h2 h3
    · rcases List.mem_pair.mp hbl with rfl | rfl <;> omega
    · rcases List.mem_pair.mp hbl with rfl | rfl <;> omega
    · rw [List.mem_singleton] at hbl
      subst hbl
      exact ⟨h3.1, h3.2, h1⟩
    · have hd : ∀ m, m < 16 → 0 < hexDigitByte m ∧ hexDigitByte m < 128 ∧
          hexDigitByte m ≠ 10 := by
        intro m hm
        unfold hexDigitByte
        split_ifs <;> omega
      simp only [List.mem_cons, List.not_mem_nil, or_false] at hbl
      rcases hbl with rfl | rfl | rfl | rfl
      · omega
      · omega
      · exact hd _ (Nat.mod_lt _ (by omega))
      · exact hd _ (Nat.mod_lt _ (by omega))
  refine ⟨hesc, ?_, by decide⟩
  intro kw hkw v b hb
  unfold formatLine at hb
  rw [List.mem_append] at hb
  rcases hb with h | h
  · exact hkw b h
  · rw [List.mem_flatten] at h
    obtain ⟨l, hl, hbl⟩ := h
    rw [List.mem_map] at hl
    obtain ⟨x, _, rfl⟩ := hl
    rcases List.mem_cons.mp hbl with rfl | h
    · omega
    · exact hesc x b h

/-- C10 witness: the escape of a newline is the two bytes of backslash-n,
both in range, and a VERSION line over a newline argument stays a single
ASCII line at its space byte. -/
theorem escape_ascii_single_line_witness :
    (0 < 110 ∧ 110 < 128 ∧ (110 : Nat) ≠ 10) ∧
    (0 < 32 ∧ 32 < 128 ∧ (32 : Nat) ≠ 10) :=
  ⟨escape_ascii_single_line.1 [10] 110 (by decide),
   escape_ascii_single_line.2.1 (strBytes "VERSION") (by decide) [[10]] 32 (by decide)⟩

/-- C4: when the zero-terminated auth-type list from the remote does not
contain type 1 (SAFE_COOKIE), the handshake rejects with no bytes written —
the result does not depend on the cookie or on the client nonce, so no
random or secret-derived byte reaches such a peer. -/
theorem extOrPortAuthenticate_no_type1_rejects
    (authCookie clientNonce ts rest : List Nat)
    (hts : ts.length ≤ 255) (h0 : ∀ b ∈ ts, b ≠ 0) (h1 : 1 ∉ ts) :
    extOrPortAuthenticate authCookie clientNonce (ts ++ 0 :: rest) =
      ([], .error "server didn't offer auth type 1") := by
  unfold extOrPortAuthenticate
  rw [readAuthTypes_terminated ts 256 [] rest (by omega) h0]
  simp [h1]

/-- C4 witness: a peer advertising only auth type 2 is rejected with
nothing written. -/
theorem extOrPortAuthenticate_no_type1_rejects_witness :
    extOrPortAuthenticate (List.replicate 32 9) (List.replicate 32 5) [2, 0] =
      ([], .error "server didn't offer auth type 1") :=
  extOrPortAuthenticate_no_type1_rejects (List.replicate 32 9)
    (List.replicate 32 5) [2] [] (by decide) (by decide) (by decide)

/-- C5: 256 auth-type bytes with no zero terminator make the handshake fail
with the protocol-violation error, before anything is written. -/
theorem extOrPortAuthenticate_authtype_overflow
    (authCookie clientNonce input : List Nat)
    (hlen : 256 ≤ input.length) (h0 : ∀ b ∈ input.take 256, b ≠ 0) :
    extOrPortAuthenticate authCookie clientNonce input =
      ([], .error "read 256 auth types without seeing \\x00") := by
  unfold extOrPortAuthenticate
  rw [readAuthTypes_exhausted 256 input [] hlen h0]

set_option maxRecDepth 10000 in
/-- C5 witness: 256 bytes of auth type 1 without a terminator fail. -/
theorem extOrPortAuthenticate_authtype_overflow_witness :
    extOrPortAuthenticate (List.replicate 32 9) (List.replicate 32 5)
        (List.replicate 256 1) =
      ([], .error "read 256 auth types without seeing \\x00") :=
  extOrPortAuthenticate_authtype_overflow (List.replicate 32 9)
    (List.replicate 32 5) (List.replicate 256 1) (by decide) (by decide)

/-- C1: the expected server hash is HMAC-SHA256 keyed with the cookie over
the fixed server-to-client domain string, the client nonce and the server
nonce, and whenever the 32 received hash bytes differ from it — the
comparison being `subtle.ConstantTimeCompare` — the handshake stops with
the mismatch error having written only the selection byte and the client
nonce: the client hash is never written. -/
theorem extOrPortAuthenticate_server_hash_mismatch
    (authCookie clientNonce ts sh sn rest : List Nat)
    (hts : ts.length ≤ 255) (h0 : ∀ b ∈ ts, b ≠ 0) (h1 : 1 ∈ ts)
    (hsh : sh.length = 32) (hsn : sn.length = 32)
    (hm : sh ≠ computeServerHash authCookie clientNonce sn) :
    computeServerHash authCookie clientNonce sn =
      hmacSha256 authCookie
        (strBytes "ExtORPort authentication server-to-client hash" ++
          clientNonce ++ sn) ∧
    extOrPortAuthenticate authCookie clientNonce (ts ++ 0 :: (sh ++ sn ++ rest)) =
      (1 :: clientNonce, .error "mismatch in server hash") := by
  refine ⟨rfl, ?_⟩
  have hr1 : readFullN (sh ++ (sn ++ rest)) 32 = some (sh, sn ++ rest) := by
    unfold readFullN
    rw [if_pos (by simp [hsh])]
    rw [← hsh, List.take_left, List.drop_left]
  have hr2 : readFullN (sn ++ rest) 32 = some (sn, rest) := by
    unfold readFullN
    rw [if_pos (by simp [hsn])]
    rw [← hsn, List.take_left, List.drop_left]
  have hc : constantTimeCompare sh (computeServerHash authCookie clientNonce sn) ≠ 1 :=
    fun h => hm ((constantTimeCompare_eq_one _ _).mp h)
  unfold extOrPortAuthenticate
  rw [readAuthTypes_terminated ts 256 [] (sh ++ sn ++ rest) (by omega) h0]
  simp only [List.nil_append, List.append_assoc, h1, if_true, hr1, hr2, if_pos hc]

set_option maxRecDepth 4000 in
/-- C1 witness: an all-zero received hash differs from the HMAC of an
all-zero cookie and nonces, and the handshake writes only the selection
byte and the client nonce before rejecting. -/
theorem extOrPortAuthenticate_server_hash_mismatch_witness :
    extOrPortAuthenticate (List.replicate 32 0) (List.replicate 32 0)
        ([1] ++ 0 :: (List.replicate 32 0 ++ List.replicate 32 0 ++ [])) =
      (1 :: List.replicate 32 0, .error "mismatch in server hash") :=
  (extOrPortAuthenticate_server_hash_mismatch (List.replicate 32 0)
    (List.replicate 32 0) [1] (List.replicate 32 0) (List.replicate 32 0) []
    (by decide) (by decide) (by decide) (by decide) (by decide) (by decide)).2

/-- C6: session setup writes the USERADDR, TRANSPORT and DONE frames, in
that order and nothing else, then receives exactly one command: success
exactly when its id is OKAY (0x1000); DENY (0x1001) and every other id give
errors — an unknown id is never silently ignored. -/
theorem extOrPortSetup_strict_sequence (addr method input : List Nat)
    (cmd : Nat) (body rest : List Nat)
    (ha : addr.length ≤ 65535) (hm : method.length ≤ 65535)
    (hrecv : extOrPortRecvCommand input = .ok (cmd, body, rest)) :
    (extOrPortSetup addr method input).1 =
      (0 :: 1 :: addr.length / 256 :: addr.length % 256 :: addr) ++
      (0 :: 2 :: method.length / 256 :: method.length % 256 :: method) ++
      [0, 0, 0, 0] ∧
    ((extOrPortSetup addr method input).2 = .ok () ↔ cmd = extOrCmdOkay) ∧
    (cmd = extOrCmdDeny → (extOrPortSetup addr method input).2 =
      .error (strBytes "server returned DENY after our USERADDR and DONE")) ∧
    (cmd ≠ extOrCmdOkay → cmd ≠ extOrCmdDeny → (extOrPortSetup addr method input).2 =
      .error (strBytes "server returned unknown command 0x" ++ hex4 cmd ++
              strBytes " after our USERADDR and DONE")) := by
  have hw1 : extOrPortWriteCommand extOrCmdUserAddr addr =
      .ok (0 :: 1 :: addr.length / 256 :: addr.length % 256 :: addr) := by
    unfold extOrPortWriteCommand extOrCmdUserAddr
    rw [if_neg (by omega)]
  have hw2 : extOrPortWriteCommand extOrCmdTransport method =
      .ok (0 :: 2 :: method.length / 256 :: method.length % 256 :: method) := by
    unfold extOrPortWriteCommand extOrCmdTransport
    rw [if_neg (by omega)]
  have hw3 : extOrPortWriteCommand extOrCmdDone [] = .ok [0, 0, 0, 0] := rfl
  have hkey : extOrPortSetup addr method input =
      ((0 :: 1 :: addr.length / 256 :: addr.length % 256 :: addr) ++
       (0 :: 2 :: method.length / 256 :: method.length % 256 :: method) ++
       [0, 0, 0, 0],
       if cmd = extOrCmdDeny then
         .error (strBytes "server returned DENY after our USERADDR and DONE")
       else if cmd ≠ extOrCmdOkay then
         .error (strBytes "server returned unknown command 0x" ++ hex4 cmd ++
                 strBytes " after our USERADDR and DONE")
       else .ok ()) := by
    simp only [extOrPortSetup, hw1, hw2, hw3, hrecv]
    split_ifs <;> rfl
  rw [hkey]
  refine ⟨rfl, ?_, ?_, ?_⟩
  · by_cases hd : cmd = extOrCmdDeny
    · subst hd
      simp [extOrCmdDeny, extOrCmdOkay]
    · by_cases ho : cmd = extOrCmdOkay
      · simp [hd, ho, extOrCmdOkay, extOrCmdDeny]
      · simp [hd, ho]
  · intro hd
    simp [hd]
  · intro ho hd
    simp [hd, ho]

/-- C6 witness: a DENY reply after the three commands yields the DENY
error, with the three frames written in order. -/
theorem extOrPortSetup_strict_sequence_witness :
    (extOrPortSetup [65] [66] [16, 1, 0, 0]).2 =
      .error (strBytes "server returned DENY after our USERADDR and DONE") :=
  (extOrPortSetup_strict_sequence [65] [66] [16, 1, 0, 0] 4097 [] []
    (by decide) (by decide) rfl).2.2.1 (by decide)

/-- C7: with no extended OR address configured, `ConnectOr` performs only
the direct dial and returns its outcome, with no deadline and no handshake;
otherwise it dials the intermediary, sets the deadline before the handshake
and setup, closes the connection and propagates the error on any failure,
and on success clears the deadline and returns the stream. -/
theorem ConnectOr_contract (env : ConnectEnv) :
    (env.extConfigured = false →
      (ConnectOr env).1 = [.dialOr] ∧
      ConnectAction.authenticate ∉ (ConnectOr env).1 ∧
      ConnectAction.setup ∉ (ConnectOr env).1 ∧
      ConnectAction.setDeadline ∉ (ConnectOr env).1 ∧
      (env.dialOrResult = .ok () → (ConnectOr env).2 = .ok .orConn) ∧
      (∀ e, env.dialOrResult = .error e → (ConnectOr env).2 = .error e)) ∧
    (env.extConfigured = true →
      (∀ e, env.dialExtResult = .error e →
        ConnectOr env = ([.dialExt], .error e)) ∧
      (∀ e, env.dialExtResult = .ok () → env.authResult = .error e →
        ConnectOr env = ([.dialExt, .setDeadline, .authenticate, .close], .error e)) ∧
      (∀ e, env.dialExtResult = .ok () → env.authResult = .ok () →
        env.setupResult = .error e →
        ConnectOr env =
          ([.dialExt, .setDeadline, .authenticate, .setup, .close], .error e)) ∧
      (env.dialExtResult = .ok () → env.authResult = .ok () →
        env.setupResult = .ok () →
        ConnectOr env =
          ([.dialExt, .setDeadline, .authenticate, .setup, .clearDeadline],
           .ok .extConn))) := by
  obtain ⟨ec, dor, der, ar, sr⟩ := env
  constructor
  · intro h
    have hec : ec = false := h
    subst hec
    have hC : ConnectOr ⟨false, dor, der, ar, sr⟩ =
        ([.dialOr], do let _ ← dor; return OrStream.orConn) := rfl
    rw [hC]
    refine ⟨rfl, by simp, by simp, by simp, ?_, ?_⟩
    · intro hok
      have h' : dor = .ok () := hok
      subst h'
      rfl
    · intro e herr
      have h' : dor = .error e := herr
      subst h'
      rfl
  · intro h
    have hec : ec = true := h
    subst hec
    refine ⟨?_, ?_, ?_, ?_⟩
    · intro e h1
      have h1' : der = .error e := h1
      subst h1'
      rfl
    · intro e h1 h2
      have h1' : der = .ok () := h1
      have h2' : ar = .error e := h2
      subst h1'
      subst h2'
      rfl
    · intro e h1 h2 h3
      have h1' : der = .ok () := h1
      have h2' : ar = .ok () := h2
      have h3' : sr = .error e := h3
      subst h1'
      subst h2'
      subst h3'
      rfl
    · intro h1 h2 h3
      have h1' : der = .ok () := h1
      have h2' : ar = .ok () := h2
      have h3' : sr = .ok () := h3
      subst h1'
      subst h2'
      subst h3'
      rfl

/-- C7 witness: with the intermediary configured and authentication
failing, the trace dials, sets the deadline, authenticates and closes, and
the authentication error is propagated unchanged. -/
theorem ConnectOr_contract_witness :
    ConnectOr ⟨true, .ok (), .ok (), .error "mismatch in server hash", .ok ()⟩ =
      ([.dialExt, .setDeadline, .authenticate, .close],
       .error "mismatch in server hash") :=
  ((ConnectOr_contract ⟨true, .ok (), .ok (), .error "mismatch in server hash",
      .ok ()⟩).2 rfl).2.1 "mismatch in server hash" rfl rfl

end Goptlib


